import Mathlib

/-!
Verification of the reveal-on-scroll engine and auxiliary helpers of the
portfolio scripts (`script.js` and its unnamed near-duplicate variant).

Shallow embedding conventions:
* A DOM element relevant to the animation engine is modelled by `Elem`:
  its optional `data-animation` tag, its class list (in insertion order)
  and its `animation-delay` style property.
* A watched section is modelled by the ordered result of the structural
  query `querySelectorAll('.section-content > *, h2, ...')` run against
  it, i.e. a `List Elem` in document order (`Sect`).
* JS numbers appearing here (stagger delays) are carried as rationals.
  The reveal bookkeeping (`revealElem`) records the delay products
  `index * step` exactly; where the binary64 rounding of those products
  matters (the cross-variant delay comparison), the IEEE-754 double
  semantics of JS numbers is modelled explicitly by `roundB64`/`jsMul`.
* The `IntersectionObserver` is modelled by the set of currently observed
  section indices (`EngineState.watched`) together with the host contract
  that the browser only delivers entries for currently observed targets
  (`hostDeliver`); the callback body itself is `callbackEntry`.
* JavaScript is single threaded: the whole body of
  `setupScrollAnimations` runs synchronously before any observer callback
  can fire, so setup is modelled as one atomic state construction.
-/

/-- A DOM element as seen by the reveal engine: its `data-animation`
dataset entry, its class list (classes in insertion order; `classList.add`
appends) and its `animation-delay` inline style (in seconds, exact). -/
structure Elem where
  dataAnimation : Option String
  classes : List String
  animationDelay : Option ℚ
  deriving Repr, DecidableEq

/-- A watched section, represented by the result of the fixed structural
query against it, in document order. -/
abbrev Sect := List Elem

/-- State of the reveal engine: the sections of the page (each as its
current query result), the set of section indices currently observed by
the `IntersectionObserver`, and whether an observer was created at all. -/
structure EngineState where
  sections : List Sect
  watched : List Nat
  observerCreated : Bool
  deriving Repr, DecidableEq

/-- `el.dataset.animation || 'animate-fade-in-up'` — the animation class
chosen for an element: its explicit tag if present, else the default. -/
def animationType (el : Elem) : String :=
  el.dataAnimation.getD "animate-fade-in-up"

/-- Body of `elements.forEach(function(el, index) {...})` in the observer
callback: `el.style.animationDelay` is set to `index * step` seconds and
the animation class is added.  `step` is `1/10` in `script.js` and `1/2`
in the unnamed variant. -/
def revealElem (step : ℚ) (index : Nat) (el : Elem) : Elem :=
  { el with
    animationDelay := some ((index : ℚ) * step)
    classes := el.classes ++ [animationType el] }

/-- The indexed `forEach` loop of the callback, starting at index `k`. -/
def revealFrom (step : ℚ) : Nat → List Elem → List Elem
  | _, [] => []
  | k, el :: rest => revealElem step k el :: revealFrom step (k + 1) rest

/-- The full reveal pass over a section's query result (indices from 0). -/
def revealElems (step : ℚ) (els : List Elem) : List Elem :=
  revealFrom step 0 els

/-- One intersection entry as delivered to the observer callback:
the target section's index and its `isIntersecting` flag. -/
structure Entry where
  target : Nat
  isIntersecting : Bool
  deriving Repr, DecidableEq

/-- Body of `entries.forEach(function(entry) {...})` for a single entry:
`if (!entry.isIntersecting) return;` then re-run the structural query on
the target, reveal every element, and `observer.unobserve(entry.target)`. -/
def callbackEntry (step : ℚ) (st : EngineState) (e : Entry) : EngineState :=
  if e.isIntersecting then
    let els := (st.sections[e.target]?).getD []
    { st with
      sections := st.sections.set e.target (revealElems step els)
      watched := st.watched.filter (fun j => j ≠ e.target) }
  else st

/-- The whole callback on a batch of entries, in delivery order. -/
def callbackBatch (step : ℚ) (st : EngineState) (es : List Entry) : EngineState :=
  es.foldl (callbackEntry step) st

/-- Host contract of `IntersectionObserver`: the browser delivers an entry
for a target only while that target is observed.  An intersection report
for an unobserved (already unobserved) section reaches no callback. -/
def hostDeliver (step : ℚ) (st : EngineState) (e : Entry) : EngineState :=
  if e.target ∈ st.watched then callbackEntry step st e else st

/-- `el.classList.add('animate-initially-hidden')` at setup time. -/
def hideElem (el : Elem) : Elem :=
  { el with classes := el.classes ++ ["animate-initially-hidden"] }

/-- `setupScrollAnimations`: guard
`if (!DOM.sections || DOM.sections.length === 0) return;` (input `none`
models an absent `DOM.sections`), then for every section mark each
queried descendant hidden and observe the section.  The loop body runs
synchronously, so the final state has every descendant hidden and every
section index observed; no callback can interleave. -/
def setupScrollAnimations (sections : Option (List Sect)) : EngineState :=
  match sections with
  | none => { sections := [], watched := [], observerCreated := false }
  | some ss =>
    if ss.length = 0 then
      { sections := ss, watched := [], observerCreated := false }
    else
      { sections := ss.map (fun s => s.map hideElem)
        watched := List.range ss.length
        observerCreated := true }

/-- The visibility threshold configured in `observerOptions`
(`threshold: 0.1`) in both source files. -/
def observerThreshold : ℚ := 1/10

/-- Host semantics of entry generation: the `isIntersecting` field of an
`IntersectionObserver` entry reports geometric intersection with the
root — true for any positive visible fraction `q` of the target —
independently of the configured thresholds, which only control when
entries are generated (the initial observation of a target always
generates one). -/
def entryFor (i : Nat) (q : ℚ) : Entry :=
  ⟨i, if 0 < q then true else false⟩

/-- Binary64 rounding (IEEE 754 round to nearest, ties to even) of a
non-negative rational in the normal range, which covers every number the
two engines compute: with `e` the binade exponent of `x` (so
2^e ≤ x < 2^(e+1)), the representable doubles around `x` are the integer
multiples of 2^(e-52); the nearest is chosen, a tie resolved to the even
mantissa.  JS numbers are binary64, so the delay products
`index * 0.1` (script.js line 187) and `index * 0.5` (variant line 181)
are subject to this rounding, not computed exactly. -/
def roundB64 (x : ℚ) : ℚ :=
  if x ≤ 0 then 0
  else
    let e : ℤ := Int.log 2 x
    let scaled : ℚ := x * (2:ℚ) ^ ((52:ℤ) - e)
    let lo : ℤ := ⌊scaled⌋
    let m : ℤ :=
      if scaled - (lo:ℚ) < 1/2 then lo
      else if (1:ℚ)/2 < scaled - (lo:ℚ) then lo + 1
      else if lo % 2 = 0 then lo else lo + 1
    (m : ℚ) * (2:ℚ) ^ (e - 52)

/-- A JS multiplication: the exact product, rounded to binary64. -/
def jsMul (a b : ℚ) : ℚ := roundB64 (a * b)

/-- The double denoted by the numeric literal `0.1` of script.js. -/
def jsLitTenth : ℚ := roundB64 (1/10)

/-- The double denoted by the numeric literal `0.5` of the variant. -/
def jsLitHalf : ℚ := roundB64 (1/2)

/-- Index lookup through the indexed reveal loop. -/
theorem revealFrom_getElem (step : ℚ) (els : List Elem) :
    ∀ (k i : Nat), (revealFrom step k els)[i]? = (els[i]?).map (revealElem step (k + i)) := by
  induction els with
  | nil => intro k i; simp [revealFrom]
  | cons el rest ih =>
    intro k i
    cases i with
    | zero => simp [revealFrom]
    | succ n =>
      simp only [revealFrom, List.getElem?_cons_succ]
      rw [ih (k + 1) n]
      ring_nf

/-- Index lookup through the full reveal pass. -/
theorem revealElems_getElem (step : ℚ) (els : List Elem) (i : Nat) :
    (revealElems step els)[i]? = (els[i]?).map (revealElem step i) := by
  simpa using revealFrom_getElem step els 0 i

/-!
The pure colour helper `hexToRgb` (identical in both source files).
Input is `Option String`: `none` models any non-string JavaScript value
(the `typeof hex !== 'string'` branch); note the empty string is falsy in
JavaScript, so `!hex` also rejects it.
-/

/-- The character class `[a-f\d]` under the `/i` flag: a decimal digit or
a letter in the range from 'a' to 'f', in either case. -/
def isHexDigit (c : Char) : Bool :=
  (Char.toNat '0' ≤ c.toNat ∧ c.toNat ≤ Char.toNat '9') ∨
  (Char.toNat 'a' ≤ c.toNat ∧ c.toNat ≤ Char.toNat 'f') ∨
  (Char.toNat 'A' ≤ c.toNat ∧ c.toNat ≤ Char.toNat 'F')

/-- Numeric value of one hex digit, as `parseInt(_, 16)` assigns it. -/
def hexVal (c : Char) : Nat :=
  if c.toNat ≤ Char.toNat '9' then c.toNat - Char.toNat '0'
  else if Char.toNat 'a' ≤ c.toNat then c.toNat - Char.toNat 'a' + 10
  else c.toNat - Char.toNat 'A' + 10

/-- `parseInt` of a two-hex-digit capture group. -/
def hexPairVal (c₁ c₂ : Char) : Nat :=
  16 * hexVal c₁ + hexVal c₂

/-- Exactly six hex digits, split into the three capture groups of
`([a-f\d]{2})([a-f\d]{2})([a-f\d]{2})$`. -/
def matchHex6 : List Char → Option (Nat × Nat × Nat)
  | [c₁, c₂, c₃, c₄, c₅, c₆] =>
    if isHexDigit c₁ ∧ isHexDigit c₂ ∧ isHexDigit c₃ ∧
       isHexDigit c₄ ∧ isHexDigit c₅ ∧ isHexDigit c₆ then
      some (hexPairVal c₁ c₂, hexPairVal c₃ c₄, hexPairVal c₅ c₆)
    else none
  | _ => none

/-- `/^#?([a-f\d]{2})([a-f\d]{2})([a-f\d]{2})$/i.exec(hex)`.  When the
string starts with a hash the optional `#?` must consume it (a hash is
not a hex digit, so the branch that leaves it cannot match); otherwise
the whole string must be the six digits. -/
def execHexRegex (s : String) : Option (Nat × Nat × Nat) :=
  match s.toList with
  | '#' :: rest => matchHex6 rest
  | cs => matchHex6 cs

/-- `hexToRgb` from both source files.  `none` models a non-string input;
the guard `!hex || typeof hex !== 'string' || !hex.includes('#')` returns
the fallback "0,0,0", then the regex either yields the three decimal
components or the fallback again. -/
def hexToRgb (hex : Option String) : String :=
  match hex with
  | none => "0,0,0"
  | some s =>
    if s = "" ∨ '#' ∉ s.toList then "0,0,0"
    else
      match execHexRegex s with
      | some (r, g, b) => toString r ++ "," ++ toString g ++ "," ++ toString b
      | none => "0,0,0"

/-!
The mobile-menu handlers of `setupMobileMenu` and `closeMobileMenu`.
State: presence of the 'open' class on the nav-links element and on the
nav-toggle element, the toggle's `aria-expanded` attribute value (a
string; `setAttribute` coerces the boolean), and presence of 'no-scroll'
on the body.
-/

/-- Mobile-menu related DOM state. -/
structure MenuState where
  navLinksOpen : Bool
  navToggleOpen : Bool
  ariaExpanded : String
  bodyNoScroll : Bool
  deriving Repr, DecidableEq

/-- The click handler installed by `setupMobileMenu`:
`isOpen = navLinks.classList.toggle('open')`, toggle 'open' on the
nav-toggle, set `aria-expanded` to the string form of `isOpen`, toggle
'no-scroll' on the body. -/
def toggleClick (st : MenuState) : MenuState :=
  let isOpen := ! st.navLinksOpen
  { navLinksOpen := isOpen
    navToggleOpen := ! st.navToggleOpen
    ariaExpanded := if isOpen then "true" else "false"
    bodyNoScroll := ! st.bodyNoScroll }

/-- `closeMobileMenu`: if the nav-links element has the 'open' class,
remove 'open' from both elements, set `aria-expanded` to "false" and
remove 'no-scroll'; otherwise do nothing. -/
def closeMobileMenu (st : MenuState) : MenuState :=
  if st.navLinksOpen then
    { navLinksOpen := false, navToggleOpen := false
      ariaExpanded := "false", bodyNoScroll := false }
  else st

/-- A user-visible menu event: a click on the toggle, or any of the
paths that call `closeMobileMenu` (smooth-scroll clicks). -/
inductive MenuEvent
  | toggle
  | close
  deriving Repr, DecidableEq

/-- Dispatch one menu event. -/
def menuStep (st : MenuState) : MenuEvent → MenuState
  | MenuEvent.toggle => toggleClick st
  | MenuEvent.close => closeMobileMenu st

/-- Run a sequence of menu events in order. -/
def menuRun (st : MenuState) (evs : List MenuEvent) : MenuState :=
  evs.foldl menuStep st

/-- The four menu indicators agree: both 'open' classes, the
`aria-expanded` string and the body 'no-scroll' class reflect the same
boolean. -/
def menuConsistent (st : MenuState) : Prop :=
  st.navToggleOpen = st.navLinksOpen ∧
  (st.ariaExpanded = "true" ↔ st.navLinksOpen = true) ∧
  st.bodyNoScroll = st.navLinksOpen

/-!
The `init` startup sequence.  `init` calls each setup routine directly,
one after the other, with no try/catch around the individual calls.  A
routine is modelled as a state transformer that may also report an
uncaught exception (`some e`): DOM mutations made before the throw
persist.  Sequencing is the JavaScript call semantics: an uncaught
exception propagates out of `init`, so the remaining routines are not
invoked.
-/

/-- Run a list of setup routines the way `init` does: call each in turn;
an uncaught exception aborts the whole sequence (the error propagates,
the state mutated so far persists, later routines never run). -/
def initSequence {σ ε : Type} : List (σ → σ × Option ε) → σ → σ × Option ε
  | [], s => (s, none)
  | r :: rs, s =>
    match r s with
    | (s₁, none) => initSequence rs s₁
    | (s₁, some e) => (s₁, some e)

/-!
Helper lemmas shared by the claim theorems.
-/

/-- Setting an index back to the value it already holds leaves the list
unchanged. -/
theorem set_getElem_eq_self {α : Type} (l : List α) :
    ∀ (i : Nat) (a : α), l[i]? = some a → l.set i a = l := by
  induction l with
  | nil => intro i a h; simp at h
  | cons x xs ih =>
    intro i a h
    cases i with
    | zero => simp at h; simp [List.set, h]
    | succ n =>
      simp only [List.getElem?_cons_succ] at h
      simp [List.set, ih n a h]

/-- A delivered qualifying entry for a watched section with query result
`els` yields exactly the reveal of that section and the release of its
subscription. -/
theorem hostDeliver_qualifying (step : ℚ) (st : EngineState) (i : Nat) (els : Sect)
    (hw : i ∈ st.watched) (hs : st.sections[i]? = some els) :
    hostDeliver step st ⟨i, true⟩ =
      { st with
        sections := st.sections.set i (revealElems step els)
        watched := st.watched.filter (fun j => j ≠ i) } := by
  simp only [hostDeliver, callbackEntry, if_pos hw, if_pos rfl]
  simp [hs]

/-- After a qualifying delivery the section is no longer watched. -/
theorem not_mem_watched_after (step : ℚ) (st : EngineState) (i : Nat) :
    i ∉ (callbackEntry step st ⟨i, true⟩).watched := by
  simp [callbackEntry, List.mem_filter]

/-- Characterisation of the binade exponent used by `roundB64`. -/
theorem int_log2_eq (x : ℚ) (e : ℤ) (hx : 0 < x)
    (h₁ : ((2:ℕ):ℚ) ^ e ≤ x) (h₂ : x < ((2:ℕ):ℚ) ^ (e+1)) : Int.log 2 x = e := by
  have hl := (Int.zpow_le_iff_le_log (show (1:ℕ) < 2 by norm_num) hx).mp h₁
  have hu := (Int.lt_zpow_iff_log_lt (show (1:ℕ) < 2 by norm_num) hx).mp h₂
  omega

/-- Evaluation of `roundB64` once its binade, floor and rounding decision
are pinned down. -/
theorem roundB64_eq_of (x : ℚ) (e lo m : ℤ) (hx : 0 < x)
    (hlog : Int.log 2 x = e)
    (hfl : ⌊x * (2:ℚ) ^ ((52:ℤ) - e)⌋ = lo)
    (hm : m = (if x * (2:ℚ) ^ ((52:ℤ) - e) - (lo:ℚ) < 1/2 then lo
          else if (1:ℚ)/2 < x * (2:ℚ) ^ ((52:ℤ) - e) - (lo:ℚ) then lo + 1
          else if lo % 2 = 0 then lo else lo + 1)) :
    roundB64 x = (m : ℚ) * (2:ℚ) ^ (e - 52) := by
  simp only [roundB64]
  rw [if_neg (not_le.mpr hx), hlog, hfl, ← hm]

/-- The double nearest to 1/10 (the value JS reads for the literal 0.1). -/
theorem jsLitTenth_eq : jsLitTenth = 3602879701896397 / 2 ^ 55 := by
  have h := roundB64_eq_of (1/10) (-4) 7205759403792793 7205759403792794 (by norm_num)
    (int_log2_eq _ _ (by norm_num) (by norm_num) (by norm_num))
    (by rw [Int.floor_eq_iff] ; constructor <;> norm_num)
    (by norm_num)
  rw [jsLitTenth, h]
  norm_num

/-- The literal 0.5 is exactly representable. -/
theorem jsLitHalf_eq : jsLitHalf = 1/2 := by
  have h := roundB64_eq_of (1/2) (-1) 4503599627370496 4503599627370496 (by norm_num)
    (int_log2_eq _ _ (by norm_num) (by norm_num) (by norm_num))
    (by rw [Int.floor_eq_iff] ; constructor <;> norm_num)
    (by norm_num)
  rw [jsLitHalf, h]
  norm_num

/-- The binary64 product 3 * 0.1: the exact product falls halfway between
two doubles and the tie resolves upward (to the even mantissa), giving
0.30000000000000004… rather than 0.3. -/
theorem jsMul_three_tenth : jsMul 3 jsLitTenth = 1351079888211149 / 2 ^ 52 := by
  rw [jsMul, jsLitTenth_eq]
  have h := roundB64_eq_of (3 * (3602879701896397 / 2 ^ 55)) (-2)
      5404319552844595 5404319552844596 (by norm_num)
    (int_log2_eq _ _ (by norm_num) (by norm_num) (by norm_num))
    (by rw [Int.floor_eq_iff] ; constructor <;> norm_num)
    (by norm_num)
  rw [h]
  norm_num

/-- The binary64 product 3 * 0.5 is exact. -/
theorem jsMul_three_half : jsMul 3 jsLitHalf = 3/2 := by
  rw [jsMul, jsLitHalf_eq]
  have h := roundB64_eq_of (3 * (1/2)) 0 6755399441055744 6755399441055744 (by norm_num)
    (int_log2_eq _ _ (by norm_num) (by norm_num) (by norm_num))
    (by rw [Int.floor_eq_iff] ; constructor <;> norm_num)
    (by norm_num)
  rw [h]
  norm_num

/-- The binary64 product 5 * (3 * 0.1) is exactly representable and is
not 1.5. -/
theorem jsMul_five_prod : jsMul 5 (1351079888211149 / 2 ^ 52) = 6755399441055745 / 2 ^ 52 := by
  rw [jsMul]
  have h := roundB64_eq_of (5 * (1351079888211149 / 2 ^ 52)) 0
      6755399441055745 6755399441055745 (by norm_num)
    (int_log2_eq _ _ (by norm_num) (by norm_num) (by norm_num))
    (by rw [Int.floor_eq_iff] ; constructor <;> norm_num)
    (by norm_num)
  rw [h]
  norm_num

/-!
Claim theorems.
-/

/-- C6: when the set of watched sections is absent or empty, the reveal
engine setup performs no work: no observer is created, no element is
marked hidden, nothing is watched, and (being a total function) no
exception escapes. -/
theorem c6_empty_setup_noop :
    setupScrollAnimations none =
      { sections := [], watched := [], observerCreated := false } ∧
    setupScrollAnimations (some []) =
      { sections := [], watched := [], observerCreated := false } := by
  constructor <;> rfl

/-- C1: in a revealed section every descendant of the freshly computed
query result, at zero-based index `i`, ends with exactly one animation
class appended (its explicit `data-animation` tag if present, else the
default "animate-fade-in-up") and its delay set to `i * step` with the
script.js step of 0.1 s; delays are strictly increasing in document
order; and the concrete 3-descendant scenario with no explicit tags
yields delays 0 s, 0.1 s, 0.2 s, all with the default animation name. -/
theorem c1_stagger_assignment :
    (∀ (els : List Elem) (i : Nat) (el : Elem), els[i]? = some el →
      (revealElems (1/10) els)[i]? =
        some { el with
               animationDelay := some ((i : ℚ) * (1/10))
               classes := el.classes ++ [el.dataAnimation.getD "animate-fade-in-up"] }) ∧
    (∀ (els : List Elem) (i j : Nat) (eli elj : Elem), i < j →
      (revealElems (1/10) els)[i]? = some eli →
      (revealElems (1/10) els)[j]? = some elj →
      ∃ di dj : ℚ, eli.animationDelay = some di ∧ elj.animationDelay = some dj ∧ di < dj) ∧
    (revealElems (1/10) [⟨none, [], none⟩, ⟨none, [], none⟩, ⟨none, [], none⟩] =
      [⟨none, ["animate-fade-in-up"], some 0⟩,
       ⟨none, ["animate-fade-in-up"], some (1/10)⟩,
       ⟨none, ["animate-fade-in-up"], some (2/10)⟩]) := by
  refine ⟨?_, ?_, ?_⟩
  · intro els i el h
    rw [revealElems_getElem, h]
    rfl
  · intro els i j eli elj hij hi hj
    rw [revealElems_getElem] at hi hj
    cases hels_i : els[i]? with
    | none => rw [hels_i] at hi; simp at hi
    | some a =>
      cases hels_j : els[j]? with
      | none => rw [hels_j] at hj; simp at hj
      | some b =>
        rw [hels_i] at hi; rw [hels_j] at hj
        simp only [Option.map_some', Option.some.injEq] at hi hj
        refine ⟨(i : ℚ) * (1/10), (j : ℚ) * (1/10), ?_, ?_, ?_⟩
        · rw [← hi]; rfl
        · rw [← hj]; rfl
        · have : (i : ℚ) < (j : ℚ) := by exact_mod_cast hij
          nlinarith
  · norm_num [revealElems, revealFrom, revealElem, animationType]

/-- Witness for C1 at a concrete input: a single untagged element gets
the default animation name and a zero delay. -/
theorem c1_witness :
    (revealElems (1/10) [⟨none, [], none⟩])[0]? =
      some { dataAnimation := none
             animationDelay := some ((0 : ℚ) * (1/10))
             classes := ([] : List String) ++ ["animate-fade-in-up"] } :=
  c1_stagger_assignment.1 [⟨none, [], none⟩] 0 ⟨none, [], none⟩ rfl

/-- C2: a watched section is processed at most once: the first qualifying
delivery reveals its descendants and releases the subscription, and any
later report for the same section (qualifying or not) has no effect. -/
theorem c2_process_once (step : ℚ) (st : EngineState) (i : Nat) (els : Sect)
    (hw : i ∈ st.watched) (hs : st.sections[i]? = some els) :
    i ∉ (hostDeliver step st ⟨i, true⟩).watched ∧
    (hostDeliver step st ⟨i, true⟩).sections[i]? = some (revealElems step els) ∧
    ∀ b : Bool, hostDeliver step (hostDeliver step st ⟨i, true⟩) ⟨i, b⟩ =
      hostDeliver step st ⟨i, true⟩ := by
  have hlt : i < st.sections.length := by
    rw [List.getElem?_eq_some] at hs; exact hs.1
  have hq := hostDeliver_qualifying step st i els hw hs
  refine ⟨?_, ?_, ?_⟩
  · rw [hq]; simp [List.mem_filter]
  · rw [hq]
    simpa using List.getElem?_set_eq_of_lt (revealElems step els) hlt
  · intro b
    rw [hq]
    simp [hostDeliver, List.mem_filter]

/-- Witness for C2 at a concrete input: one watched one-element section;
after the first qualifying delivery a second qualifying delivery is a
no-op. -/
theorem c2_witness :
    0 ∉ (hostDeliver (1/10) ⟨[[⟨none, [], none⟩]], [0], true⟩ ⟨0, true⟩).watched ∧
    (hostDeliver (1/10) ⟨[[⟨none, [], none⟩]], [0], true⟩ ⟨0, true⟩).sections[0]? =
      some (revealElems (1/10) [⟨none, [], none⟩]) ∧
    hostDeliver (1/10) (hostDeliver (1/10) ⟨[[⟨none, [], none⟩]], [0], true⟩ ⟨0, true⟩)
        ⟨0, true⟩ =
      hostDeliver (1/10) ⟨[[⟨none, [], none⟩]], [0], true⟩ ⟨0, true⟩ := by
  obtain ⟨h₁, h₂, h₃⟩ := c2_process_once (1/10) ⟨[[⟨none, [], none⟩]], [0], true⟩ 0
    [⟨none, [], none⟩] (by simp) rfl
  exact ⟨h₁, h₂, h₃ true⟩

/-- C3 counterexample: a section 5% visible — below the configured 10%
threshold — is delivered (as on initial observation) with
`isIntersecting` true, because that flag reports geometric intersection
and ignores the threshold; the guard `if (!entry.isIntersecting) return`
then lets the code reveal the section and release its watcher: the
still-below-threshold section is mutated and no longer under watch,
contrary to the claim. -/
theorem c3_counterexample :
    (1/20 : ℚ) < observerThreshold ∧
    (entryFor 0 (1/20)).isIntersecting = true ∧
    hostDeliver (1/10) ⟨[[⟨none, ["animate-initially-hidden"], none⟩]], [0], true⟩
        (entryFor 0 (1/20)) ≠
      ⟨[[⟨none, ["animate-initially-hidden"], none⟩]], [0], true⟩ ∧
    (hostDeliver (1/10) ⟨[[⟨none, ["animate-initially-hidden"], none⟩]], [0], true⟩
        (entryFor 0 (1/20))).sections[0]? =
      some [⟨none, ["animate-initially-hidden", "animate-fade-in-up"], some 0⟩] ∧
    0 ∉ (hostDeliver (1/10) ⟨[[⟨none, ["animate-initially-hidden"], none⟩]], [0], true⟩
        (entryFor 0 (1/20))).watched := by
  have he : entryFor 0 (1/20) = ⟨0, true⟩ := by
    simp only [entryFor, if_pos (show (0:ℚ) < 1/20 by norm_num)]
  have hd := hostDeliver_qualifying (1/10)
    ⟨[[⟨none, ["animate-initially-hidden"], none⟩]], [0], true⟩ 0
    [⟨none, ["animate-initially-hidden"], none⟩] (by simp) rfl
  refine ⟨by norm_num [observerThreshold], by rw [he], ?_, ?_, ?_⟩
  · rw [he, hd]
    intro hcontra
    have hw := congrArg EngineState.watched hcontra
    simp [List.filter] at hw
  · rw [he, hd]
    norm_num [revealElems, revealFrom, revealElem, animationType, List.set]
  · rw [he, hd]
    simp [List.mem_filter]

/-- C3 (amended): an entry whose `isIntersecting` flag is false — which
the host produces only when the section has no geometric intersection
with the viewport at all (zero visible fraction), not merely when it is
below the 10% threshold — causes no mutation and leaves the section
watched; and revealing one qualifying section leaves every other
section `j` untouched: its query result (hence the hidden flag on its
descendants) is unchanged and its watch status is preserved. -/
theorem c3_no_intersection_no_mutation (step : ℚ) (st : EngineState) (i j : Nat)
    (q : ℚ) (hq : ¬ (0 < q)) (hne : j ≠ i) :
    hostDeliver step st (entryFor i q) = st ∧
    (hostDeliver step st ⟨i, true⟩).sections[j]? = st.sections[j]? ∧
    ((j ∈ (hostDeliver step st ⟨i, true⟩).watched) ↔ j ∈ st.watched) := by
  have he : entryFor i q = ⟨i, false⟩ := by
    simp only [entryFor, if_neg hq]
  refine ⟨?_, ?_, ?_⟩
  · rw [he]
    simp [hostDeliver, callbackEntry]
  · by_cases hw : i ∈ st.watched
    · simp only [hostDeliver, if_pos hw, callbackEntry, if_pos rfl]
      exact List.getElem?_set_ne (fun h => hne h.symm)
    · simp [hostDeliver, hw]
  · by_cases hw : i ∈ st.watched
    · simp only [hostDeliver, if_pos hw, callbackEntry, if_pos rfl]
      simp [List.mem_filter, hne]
    · simp [hostDeliver, hw]

/-- Witness for the amended C3 at a concrete input: two watched
sections; a zero-intersection report for section 0 is a no-op, and a
qualifying reveal of section 0 leaves section 1 and its watch status
unchanged. -/
theorem c3_witness :
    hostDeliver (1/10) ⟨[[⟨none, [], none⟩], [⟨none, [], none⟩]], [0, 1], true⟩
        (entryFor 0 0) =
      ⟨[[⟨none, [], none⟩], [⟨none, [], none⟩]], [0, 1], true⟩ ∧
    (hostDeliver (1/10) ⟨[[⟨none, [], none⟩], [⟨none, [], none⟩]], [0, 1], true⟩
        ⟨0, true⟩).sections[1]? =
      (⟨[[⟨none, [], none⟩], [⟨none, [], none⟩]], [0, 1], true⟩ : EngineState).sections[1]? ∧
    ((1 ∈ (hostDeliver (1/10) ⟨[[⟨none, [], none⟩], [⟨none, [], none⟩]], [0, 1], true⟩
        ⟨0, true⟩).watched) ↔
      1 ∈ (⟨[[⟨none, [], none⟩], [⟨none, [], none⟩]], [0, 1], true⟩ : EngineState).watched) :=
  c3_no_intersection_no_mutation (1/10)
    ⟨[[⟨none, [], none⟩], [⟨none, [], none⟩]], [0, 1], true⟩ 0 1 0
    (by norm_num) (by decide)

/-- C4: after setup every queried descendant of every watched section
carries the hidden presentation flag, every section is registered with
the observer (the hiding happens in the same synchronous pass, before
registration, so no callback can precede it), and the reveal step only
adds a class — any class present before, in particular the hidden flag,
is still present after. -/
theorem c4_hidden_flag :
    (∀ (ss : List Sect) (i : Nat) (s : Sect) (j : Nat) (el : Elem),
      (setupScrollAnimations (some ss)).sections[i]? = some s → s[j]? = some el →
      "animate-initially-hidden" ∈ el.classes) ∧
    (∀ ss : List Sect, (setupScrollAnimations (some ss)).watched = List.range ss.length) ∧
    (∀ (step : ℚ) (k : Nat) (el : Elem) (c : String),
      c ∈ el.classes → c ∈ (revealElem step k el).classes) := by
  refine ⟨?_, ?_, ?_⟩
  · intro ss i s j el h₁ h₂
    by_cases hss : ss.length = 0
    · have hnil : ss = [] := List.length_eq_zero.mp hss
      subst hnil
      simp [setupScrollAnimations] at h₁
    · simp only [setupScrollAnimations, if_neg hss] at h₁
      rw [List.getElem?_map] at h₁
      cases horig : ss[i]? with
      | none => rw [horig] at h₁; simp at h₁
      | some s₀ =>
        rw [horig] at h₁
        simp only [Option.map_some', Option.some.injEq] at h₁
        subst h₁
        rw [List.getElem?_map] at h₂
        cases h₀ : s₀[j]? with
        | none => rw [h₀] at h₂; simp at h₂
        | some el₀ =>
          rw [h₀] at h₂
          simp only [Option.map_some', Option.some.injEq] at h₂
          subst h₂
          simp [hideElem]
  · intro ss
    by_cases hss : ss.length = 0
    · have hnil : ss = [] := List.length_eq_zero.mp hss
      subst hnil
      rfl
    · simp only [setupScrollAnimations, if_neg hss]
  · intro step k el c hc
    simp [revealElem, hc]

/-- Witness for C4 at a concrete input: a single one-element section. -/
theorem c4_witness :
    "animate-initially-hidden" ∈
      (Elem.mk none ["animate-initially-hidden"] none).classes ∧
    (setupScrollAnimations (some [[⟨none, [], none⟩]])).watched = List.range 1 ∧
    "animate-initially-hidden" ∈
      (revealElem (1/10) 0 ⟨none, ["animate-initially-hidden"], none⟩).classes := by
  refine ⟨?_, c4_hidden_flag.2.1 [[⟨none, [], none⟩]], ?_⟩
  · exact c4_hidden_flag.1 [[⟨none, [], none⟩]] 0
      [⟨none, ["animate-initially-hidden"], none⟩] 0
      ⟨none, ["animate-initially-hidden"], none⟩ (by decide) (by decide)
  · exact c4_hidden_flag.2.2 (1/10) 0 ⟨none, ["animate-initially-hidden"], none⟩
      "animate-initially-hidden" (by simp)

/-- C5: a qualifying delivery for a watched section whose structural
query matches zero descendants still releases the subscription and
changes nothing else; the callback is a total function, so no exception
is raised. -/
theorem c5_empty_section (step : ℚ) (st : EngineState) (i : Nat)
    (hw : i ∈ st.watched) (hs : st.sections[i]? = some ([] : Sect)) :
    hostDeliver step st ⟨i, true⟩ =
      { st with watched := st.watched.filter (fun j => j ≠ i) } := by
  have hq := hostDeliver_qualifying step st i [] hw hs
  rw [hq]
  have hrev : revealElems step ([] : Sect) = [] := rfl
  rw [hrev, set_getElem_eq_self st.sections i [] hs]

/-- Witness for C5 at a concrete input: one watched empty section. -/
theorem c5_witness :
    hostDeliver (1/10) ⟨[[]], [0], true⟩ ⟨0, true⟩ =
      { (⟨[[]], [0], true⟩ : EngineState) with
        watched := [0].filter (fun j => j ≠ 0) } :=
  c5_empty_section (1/10) ⟨[[]], [0], true⟩ 0 (by simp) rfl

/-- C7 (amended): the two reveal engines (script.js with step 0.1 s,
the unnamed variant with step 0.5 s) assign identical animation names
to identical elements in identical order, and the delay each writes is
its step times the index, so read in exact arithmetic the variant delay
is five times the script.js delay at every descendant index.  In the
binary64 arithmetic the program actually uses, the exact factor-5
identity fails at indices where the 0.1-step product rounds — see the
counterexample at index 3. -/
theorem c7_variant_refinement (els : List Elem) (i : Nat) (el : Elem)
    (h : els[i]? = some el) :
    ∃ e₁ e₅ : Elem,
      (revealElems (1/10) els)[i]? = some e₁ ∧
      (revealElems (1/2) els)[i]? = some e₅ ∧
      e₅.classes = e₁.classes ∧
      e₅.dataAnimation = e₁.dataAnimation ∧
      ∃ d : ℚ, e₁.animationDelay = some d ∧ e₅.animationDelay = some (5 * d) := by
  refine ⟨revealElem (1/10) i el, revealElem (1/2) i el, ?_, ?_, rfl, rfl,
    (i : ℚ) * (1/10), rfl, ?_⟩
  · rw [revealElems_getElem, h]; rfl
  · rw [revealElems_getElem, h]; rfl
  · simp only [revealElem]
    congr 1
    ring

/-- Witness for C7 at a concrete input: index 3 in a four-element
section, where the delays are 0.3 s and 1.5 s. -/
theorem c7_witness :
    ∃ e₁ e₅ : Elem,
      (revealElems (1/10) [⟨none, [], none⟩, ⟨none, [], none⟩,
        ⟨none, [], none⟩, ⟨none, [], none⟩])[3]? = some e₁ ∧
      (revealElems (1/2) [⟨none, [], none⟩, ⟨none, [], none⟩,
        ⟨none, [], none⟩, ⟨none, [], none⟩])[3]? = some e₅ ∧
      e₅.classes = e₁.classes ∧
      e₅.dataAnimation = e₁.dataAnimation ∧
      ∃ d : ℚ, e₁.animationDelay = some d ∧ e₅.animationDelay = some (5 * d) :=
  c7_variant_refinement _ 3 ⟨none, [], none⟩ rfl

/-- C7 counterexample: with JS numbers given their real IEEE-754
binary64 semantics (`roundB64`: round to nearest, ties to even), at
descendant index 3 the 0.5-step variant stores delay 1.5 s while the
0.1-step engine stores the double 0.30000000000000004… s, which is not
0.3 s; 1.5 is not 5 times that stored delay, neither exactly nor after
a further binary64 multiplication by 5 — so the claimed exact factor-5
relation between the delays the two engines assign is false of the
code. -/
theorem c7_counterexample :
    jsMul 3 jsLitHalf = 3/2 ∧
    jsMul 3 jsLitTenth = 1351079888211149 / 2 ^ 52 ∧
    jsMul 3 jsLitTenth ≠ (3:ℚ) * (1/10) ∧
    jsMul 3 jsLitHalf ≠ 5 * jsMul 3 jsLitTenth ∧
    jsMul 3 jsLitHalf ≠ jsMul 5 (jsMul 3 jsLitTenth) := by
  refine ⟨jsMul_three_half, jsMul_three_tenth, ?_, ?_, ?_⟩
  · rw [jsMul_three_tenth]
    norm_num
  · rw [jsMul_three_half, jsMul_three_tenth]
    norm_num
  · rw [jsMul_three_half, jsMul_three_tenth, jsMul_five_prod]
    norm_num

/-- C8 counterexample: in `init`, the routines are called one after
another with no per-call guard, so a routine that throws (here the first
routine, which appends 1 to the log and reports error 0) prevents the
next routine (which would append 2) from executing: the final log does
not contain 2. -/
theorem c8_counterexample :
    initSequence [fun l => (l ++ [1], some 0), fun l => (l ++ [2], (none : Option Nat))]
      ([] : List Nat) = ([1], some 0) ∧
    2 ∉ (initSequence [fun l => (l ++ [1], some 0), fun l => (l ++ [2], (none : Option Nat))]
      ([] : List Nat)).1 := by
  exact ⟨rfl, by decide⟩

/-- C8 amended: an uncaught error in one setup routine aborts the whole
init sequence at that routine — the error propagates, the state mutated
so far persists, and no subsequent routine executes.  Isolation exists
only where a routine catches its own errors internally. -/
theorem c8_first_error_aborts {σ ε : Type} (r : σ → σ × Option ε)
    (rs : List (σ → σ × Option ε)) (s s₁ : σ) (e : ε)
    (h : r s = (s₁, some e)) :
    initSequence (r :: rs) s = (s₁, some e) := by
  simp [initSequence, h]

/-- Witness for the amended C8 at a concrete input. -/
theorem c8_witness :
    initSequence [fun l => (l ++ [7], some 1), fun l => (l ++ [9], (none : Option Nat))]
      ([] : List Nat) = ([7], some 1) :=
  c8_first_error_aborts (fun l => (l ++ [7], some 1))
    [fun l => (l ++ [9], (none : Option Nat))] [] [7] 1 rfl

/-- One hex digit parses to a value of at most 15. -/
theorem hexVal_le (c : Char) (h : isHexDigit c = true) : hexVal c ≤ 15 := by
  unfold isHexDigit at h
  rw [decide_eq_true_eq] at h
  unfold hexVal
  have e0 : Char.toNat '0' = 48 := rfl
  have e9 : Char.toNat '9' = 57 := rfl
  have ea : Char.toNat 'a' = 97 := rfl
  have ef : Char.toNat 'f' = 102 := rfl
  have eA : Char.toNat 'A' = 65 := rfl
  have eF : Char.toNat 'F' = 70 := rfl
  rw [e0, e9, ea, ef, eA, eF] at h
  rw [e9, e0, ea, eA]
  split_ifs <;> omega

/-- A two-hex-digit capture group parses to a byte value. -/
theorem hexPairVal_le (c₁ c₂ : Char) (h₁ : isHexDigit c₁ = true)
    (h₂ : isHexDigit c₂ = true) : hexPairVal c₁ c₂ ≤ 255 := by
  have b₁ := hexVal_le c₁ h₁
  have b₂ := hexVal_le c₂ h₂
  unfold hexPairVal
  omega

/-- Whatever the six-digit matcher returns is three byte values. -/
theorem matchHex6_le (cs : List Char) (r g b : Nat)
    (h : matchHex6 cs = some (r, g, b)) : r ≤ 255 ∧ g ≤ 255 ∧ b ≤ 255 := by
  unfold matchHex6 at h
  split at h
  · split at h
    · rename_i hP
      simp only [Option.some.injEq, Prod.mk.injEq] at h
      obtain ⟨hr, hg, hb⟩ := h
      subst hr; subst hg; subst hb
      obtain ⟨p₁, p₂, p₃, p₄, p₅, p₆⟩ := hP
      exact ⟨hexPairVal_le _ _ p₁ p₂, hexPairVal_le _ _ p₃ p₄, hexPairVal_le _ _ p₅ p₆⟩
    · simp at h
  · simp at h

/-- Whatever the regex returns is three byte values. -/
theorem execHexRegex_le (s : String) (r g b : Nat)
    (h : execHexRegex s = some (r, g, b)) : r ≤ 255 ∧ g ≤ 255 ∧ b ≤ 255 := by
  unfold execHexRegex at h
  split at h
  · exact matchHex6_le _ r g b h
  · exact matchHex6_le _ r g b h

/-- C9: `hexToRgb` is total and always yields three comma-separated
decimal components in 0..255; it returns the fallback "0,0,0" for a
non-string input, for a string without a hash character (hence for a
bare six-hex-digit string), and for any string the regex rejects (hence
for the three-digit shorthand "#abc"); and for a hash followed by
exactly six hex digits it returns the decimal values of the three byte
pairs. -/
theorem c9_hexToRgb_total_fallback :
    (hexToRgb none = "0,0,0") ∧
    (∀ s : String, '#' ∉ s.toList → hexToRgb (some s) = "0,0,0") ∧
    (∀ s : String, execHexRegex s = none → hexToRgb (some s) = "0,0,0") ∧
    (∀ hex : Option String, ∃ r g b : Nat, r ≤ 255 ∧ g ≤ 255 ∧ b ≤ 255 ∧
      hexToRgb hex = toString r ++ "," ++ toString g ++ "," ++ toString b) ∧
    (∀ c₁ c₂ c₃ c₄ c₅ c₆ : Char,
      isHexDigit c₁ = true → isHexDigit c₂ = true → isHexDigit c₃ = true →
      isHexDigit c₄ = true → isHexDigit c₅ = true → isHexDigit c₆ = true →
      hexToRgb (some ⟨'#' :: [c₁, c₂, c₃, c₄, c₅, c₆]⟩) =
        toString (hexPairVal c₁ c₂) ++ "," ++ toString (hexPairVal c₃ c₄) ++ "," ++
          toString (hexPairVal c₅ c₆)) ∧
    (hexToRgb (some "abcdef") = "0,0,0") ∧
    (hexToRgb (some "#abc") = "0,0,0") := by
  refine ⟨rfl, ?_, ?_, ?_, ?_, by decide, by decide⟩
  · intro s hs
    simp only [hexToRgb]
    rw [if_pos (Or.inr hs)]
  · intro s hre
    simp only [hexToRgb]
    by_cases hc : s = "" ∨ '#' ∉ s.toList
    · rw [if_pos hc]
    · rw [if_neg hc, hre]
  · intro hex
    match hex with
    | none => exact ⟨0, 0, 0, by omega, by omega, by omega, by decide⟩
    | some s =>
      by_cases hc : s = "" ∨ '#' ∉ s.toList
      · refine ⟨0, 0, 0, by omega, by omega, by omega, ?_⟩
        simp only [hexToRgb]
        rw [if_pos hc]
        decide
      · cases hre : execHexRegex s with
        | none =>
          refine ⟨0, 0, 0, by omega, by omega, by omega, ?_⟩
          simp only [hexToRgb]
          rw [if_neg hc, hre]
          decide
        | some rgb =>
          obtain ⟨r, g, b⟩ := rgb
          obtain ⟨br, bg, bb⟩ := execHexRegex_le s r g b hre
          refine ⟨r, g, b, br, bg, bb, ?_⟩
          simp only [hexToRgb]
          rw [if_neg hc, hre]
  · intro c₁ c₂ c₃ c₄ c₅ c₆ h₁ h₂ h₃ h₄ h₅ h₆
    simp only [hexToRgb]
    have hlist : (⟨'#' :: [c₁, c₂, c₃, c₄, c₅, c₆]⟩ : String).toList =
        '#' :: [c₁, c₂, c₃, c₄, c₅, c₆] := rfl
    rw [if_neg ?hguard]
    case hguard =>
      rintro (h | h)
      · have hdata := congrArg String.toList h
        rw [hlist] at hdata
        exact List.noConfusion hdata
      · rw [hlist] at h
        exact h (List.mem_cons_self _ _)
    have hre : execHexRegex (⟨'#' :: [c₁, c₂, c₃, c₄, c₅, c₆]⟩ : String) =
        some (hexPairVal c₁ c₂, hexPairVal c₃ c₄, hexPairVal c₅ c₆) := by
      show matchHex6 [c₁, c₂, c₃, c₄, c₅, c₆] =
        some (hexPairVal c₁ c₂, hexPairVal c₃ c₄, hexPairVal c₅ c₆)
      simp only [matchHex6]
      rw [if_pos ⟨h₁, h₂, h₃, h₄, h₅, h₆⟩]
    rw [hre]

/-- Witness for C9 at concrete inputs: a hash-free string falls back,
and a well-formed hash string parses into its byte pairs. -/
theorem c9_witness :
    hexToRgb (some "zzz") = "0,0,0" ∧
    hexToRgb (some ⟨'#' :: ['1', 'a', '2', 'B', '3', 'c']⟩) =
      toString (hexPairVal '1' 'a') ++ "," ++ toString (hexPairVal '2' 'B') ++ "," ++
        toString (hexPairVal '3' 'c') :=
  ⟨c9_hexToRgb_total_fallback.2.1 "zzz" (by decide),
   c9_hexToRgb_total_fallback.2.2.2.2.1 '1' 'a' '2' 'B' '3' 'c'
     (by decide) (by decide) (by decide) (by decide) (by decide) (by decide)⟩

/-- One menu event preserves agreement of the four menu indicators. -/
theorem menuStep_consistent (st : MenuState) (h : menuConsistent st)
    (ev : MenuEvent) : menuConsistent (menuStep st ev) := by
  obtain ⟨h₁, h₂, h₃⟩ := h
  cases ev with
  | toggle =>
    cases hl : st.navLinksOpen <;>
      simp_all [menuStep, toggleClick, menuConsistent]
  | close =>
    cases hl : st.navLinksOpen <;>
      simp_all [menuStep, closeMobileMenu, menuConsistent]

/-- C10: starting from any state in which the nav-links 'open' class,
the nav-toggle 'open' class, the `aria-expanded` attribute and the body
'no-scroll' class agree, any interleaving of toggle clicks and
`closeMobileMenu` calls keeps the four mutually consistent. -/
theorem c10_menu_consistency (st : MenuState) (h : menuConsistent st)
    (evs : List MenuEvent) : menuConsistent (menuRun st evs) := by
  induction evs generalizing st with
  | nil => exact h
  | cons ev rest ih =>
    have hstep := menuStep_consistent st h ev
    simpa [menuRun, List.foldl] using ih (menuStep st ev) hstep

/-- Witness for C10 at a concrete input: the closed initial state and a
toggle followed by a close. -/
theorem c10_witness :
    menuConsistent (menuRun ⟨false, false, "false", false⟩
      [MenuEvent.toggle, MenuEvent.close]) :=
  c10_menu_consistency ⟨false, false, "false", false⟩
    ⟨rfl, by decide, rfl⟩ [MenuEvent.toggle, MenuEvent.close]
